import Mathlib

/-!
Verification development for the gflax repository.

The first half of this file embeds `flax/nnx/variablelib.py`: the `Variable`
class (a mutable, identity-bearing container wrapping one leaf value plus
behavioral hooks and open metadata) and its identity-free snapshot
`VariableState`, together with the operations the claims are about
(`_setattr`, the `value` property getter and setter, `copy_from`,
`update_from_state`, `replace`, `to_state`, `to_variable`).

Modelling conventions:
* Python object identity is made explicit: every `Variable` and every
  `VariableState` carries an `id` field (the allocation identity); `x is y`
  is `x.id = y.id`.  Operations that allocate (`object.__new__`) take the
  fresh id as an explicit argument.
* `vars(self)` of a `Variable` holds `raw_value`, the five hook tuples, the
  open metadata entries, and `_trace_state`; the structure fields below are
  exactly that attribute dictionary, with `_trace_state` and `raw_value`
  kept as named fields because the source special-cases them everywhere.
* Hooks are registered by id (`Nat`); a `HookEnv` interprets hook ids as
  functions receiving the variable and the value, exactly the
  `hook(self, value)` calling convention of the source.  Set-value hooks
  may reject a value by raising, so their interpretation is `Except`-valued.
* `tracers.TraceState` stamps the trace epoch current at creation and
  `is_valid` compares it against the current epoch; we model an epoch as a
  `Nat` and pass the current epoch `cur` to the operations that consult or
  refresh it.
* Mutating methods return `Option PyErr × Variable`: the raised exception
  (if any) together with the post-state of `self`; `(some e, v)` means the
  call raised `e` and left the object as `v`.
-/

/-- Dynamic type tag of a `Variable` subclass: `Variable` itself, the
library subclasses `Param`, `BatchStat`, `Cache`, `Intermediate`, or a
user-defined subclass identified by a code. -/
inductive VarTy where
  | base
  | param
  | batchStat
  | cache
  | intermediate
  | custom (code : Nat)
deriving DecidableEq, Repr

/-- Printable name of a variable type, used in error messages
(`type(self).__name__`). -/
def VarTy.name : VarTy → String
  | .base => "Variable"
  | .param => "Param"
  | .batchStat => "BatchStat"
  | .cache => "Cache"
  | .intermediate => "Intermediate"
  | .custom _ => "CustomVariable"

/-- Python exceptions raised by the embedded operations, named after the
spec's error taxonomy.  `traceContextError` is `errors.TraceContextError`;
`typeMismatch` is the `ValueError` raised by `copy_from`/`replace` on
incompatible concrete types; `valueError` covers the remaining
`ValueError`s. -/
inductive PyErr where
  | traceContextError (msg : String)
  | typeMismatch (msg : String)
  | valueError (msg : String)
deriving DecidableEq, Repr

/-- Values storable in the open attribute dictionary: a leaf value, a
tuple of hook ids, or an opaque metadata value. -/
inductive Attr (A M : Type) where
  | val (a : A)
  | hookIds (hs : List Nat)
  | meta (m : M)
deriving DecidableEq, Repr

/-- Association-list lookup keyed by decidable equality (the Python dict
operations used by the source reduce to this). -/
def lookupA {κ β : Type} [DecidableEq κ] : List (κ × β) → κ → Option β
  | [], _ => none
  | (k, b) :: rest, k' => if k' = k then some b else lookupA rest k'

/-- Insert-or-replace on an association list (`d[k] = v`). -/
def insertA {κ β : Type} [DecidableEq κ] : List (κ × β) → κ → β → List (κ × β)
  | [], k', b' => [(k', b')]
  | (k, b) :: rest, k', b' =>
      if k' = k then (k, b') :: rest else (k, b) :: insertA rest k' b'

/-- The `Variable` object model: `vars(self)` split into its fixed entries
(`raw_value`, the five hook tuples, `_trace_state`) and the open metadata
entries, plus the dynamic type tag `ty` (`type(self)`) and the allocation
identity `id` (`id(self)`), which Python keeps outside the attribute
dictionary. -/
structure Variable (A M : Type) where
  id : Nat
  ty : VarTy
  raw_value : A
  get_value_hooks : List Nat
  set_value_hooks : List Nat
  create_value_hooks : List Nat
  add_axis_hooks : List Nat
  remove_axis_hooks : List Nat
  metadata : List (String × Attr A M)
  traceState : Nat
deriving DecidableEq, Repr

/-- The `VariableState` snapshot: type tag, value, and the metadata
returned by `Variable.get_metadata` (which is `vars(self)` minus
`raw_value` and `_trace_state`, hence it includes the hook tuples).  The
`id` field is the Python allocation identity of the snapshot object
itself. -/
structure VariableState (A M : Type) where
  id : Nat
  type : VarTy
  value : A
  get_value_hooks : List Nat
  set_value_hooks : List Nat
  create_value_hooks : List Nat
  add_axis_hooks : List Nat
  remove_axis_hooks : List Nat
  metadata : List (String × Attr A M)
deriving DecidableEq, Repr

/-- Interpretation of hook ids.  A hook is called as `hook(self, value)`;
set-value hooks may reject the incoming value by raising. -/
structure HookEnv (A M : Type) where
  getHook : Nat → Variable A M → A → A
  setHook : Nat → Variable A M → A → Except PyErr A

/-- `TraceState.is_valid`: the epoch stamped on the variable is still the
current one. -/
def isValidTrace (ts cur : Nat) : Bool := ts == cur

/-- Message of the `TraceContextError` raised by `Variable._setattr`. -/
def mutateMsg (ty : VarTy) : String :=
  "Cannot mutate " ++ ty.name ++ " from a different trace level"

/-- `object.__setattr__(self, name, value)`: the raw attribute write that
`Variable._setattr` performs after the trace check.  The fixed attribute
names update the corresponding field; any other name updates the open
metadata dictionary. -/
def objectSetattr {A M : Type} (v : Variable A M) (name : String)
    (x : Attr A M) : Variable A M :=
  match x with
  | .val a =>
      if name = "raw_value" then { v with raw_value := a }
      else { v with metadata := insertA v.metadata name x }
  | .hookIds hs =>
      if name = "get_value_hooks" then { v with get_value_hooks := hs }
      else if name = "set_value_hooks" then { v with set_value_hooks := hs }
      else if name = "create_value_hooks" then { v with create_value_hooks := hs }
      else if name = "add_axis_hooks" then { v with add_axis_hooks := hs }
      else if name = "remove_axis_hooks" then { v with remove_axis_hooks := hs }
      else { v with metadata := insertA v.metadata name x }
  | .meta _ => { v with metadata := insertA v.metadata name x }

/-- `Variable._setattr`: raise `TraceContextError` if the stamped trace
epoch is no longer valid, otherwise perform the attribute write. -/
def Variable.setattr_ {A M : Type} (v : Variable A M) (name : String)
    (x : Attr A M) (cur : Nat) : Option PyErr × Variable A M :=
  if ¬ isValidTrace v.traceState cur then
    (some (.traceContextError (mutateMsg v.ty)), v)
  else
    (none, objectSetattr v name x)

/-- The `for hook in self.get_value_hooks: value = hook(self, value)` loop
of the `value` property getter. -/
def applyGetHooks {A M : Type} (env : HookEnv A M) (v : Variable A M) :
    List Nat → A → A
  | [], value => value
  | h :: rest, value => applyGetHooks env v rest (env.getHook h v value)

/-- The `value` property getter: start from `raw_value` and run the
get-value hooks in registration order. -/
def valueGet {A M : Type} (env : HookEnv A M) (v : Variable A M) : A :=
  applyGetHooks env v v.get_value_hooks v.raw_value

/-- The `for hook in self.set_value_hooks: value = hook(self, value)` loop
of the `value` property setter; a hook that raises aborts the loop. -/
def applySetHooks {A M : Type} (env : HookEnv A M) (v : Variable A M) :
    List Nat → A → Except PyErr A
  | [], value => .ok value
  | h :: rest, value =>
      match env.setHook h v value with
      | .error e => .error e
      | .ok value' => applySetHooks env v rest value'

/-- Argument of the `value` setter (and of `replace`): either a plain leaf
value or another `Variable` (which the setter rejects and `replace`
special-cases). -/
inductive ValOrVar (A M : Type) where
  | plain (a : A)
  | var (w : Variable A M)

/-- The `value` property setter: reject a `Variable` argument, run the
set-value hooks in registration order, then assign `self.raw_value`
(which routes through `_setattr` and its trace check). -/
def valueSet {A M : Type} (env : HookEnv A M) (v : Variable A M)
    (x : ValOrVar A M) (cur : Nat) : Option PyErr × Variable A M :=
  match x with
  | .var _ =>
      (some (.valueError "Cannot set value to a Variable, use copy_from method instead"), v)
  | .plain a =>
      match applySetHooks env v v.set_value_hooks a with
      | .error e => (some e, v)
      | .ok a' => v.setattr_ "raw_value" (.val a') cur

/-- Message of the error raised by `copy_from` on incompatible types. -/
def copyFromMsg (want got : VarTy) : String :=
  "Cannot copy from incompatible container, expected " ++ want.name
    ++ ", got " ++ got.name

/-- `Variable.copy_from(other)`: raise on incompatible concrete types; be a
no-op when `other` is the very same object; otherwise clear `vars(self)`
and refill it with `other`'s attributes, keeping only `self`'s own
`_trace_state` (the object identity and the dynamic type are untouched, as
neither lives in the attribute dictionary). -/
def Variable.copy_from {A M : Type} (self other : Variable A M) :
    Option PyErr × Variable A M :=
  if self.ty ≠ other.ty then
    (some (.typeMismatch (copyFromMsg self.ty other.ty)), self)
  else if self.id = other.id then
    (none, self)
  else
    (none,
      { id := self.id
        ty := self.ty
        raw_value := other.raw_value
        get_value_hooks := other.get_value_hooks
        set_value_hooks := other.set_value_hooks
        create_value_hooks := other.create_value_hooks
        add_axis_hooks := other.add_axis_hooks
        remove_axis_hooks := other.remove_axis_hooks
        metadata := other.metadata
        traceState := self.traceState })

/-- `Variable.update_from_state(variable_state)`: clear `vars(self)` and
refill it with the snapshot's metadata, `raw_value := variable_state.value`
and `self`'s own `_trace_state`; the dynamic type and identity are
untouched. -/
def Variable.update_from_state {A M : Type} (self : Variable A M)
    (s : VariableState A M) : Variable A M :=
  { id := self.id
    ty := self.ty
    raw_value := s.value
    get_value_hooks := s.get_value_hooks
    set_value_hooks := s.set_value_hooks
    create_value_hooks := s.create_value_hooks
    add_axis_hooks := s.add_axis_hooks
    remove_axis_hooks := s.remove_axis_hooks
    metadata := s.metadata
    traceState := self.traceState }

/-- `Variable.to_state()`: `VariableState(type(self), self.raw_value,
**self.get_metadata())`, where `get_metadata` is `vars(self)` minus
`raw_value` and `_trace_state` (so the hook tuples come along).  `sid` is
the allocation identity of the freshly constructed snapshot object. -/
def Variable.to_state {A M : Type} (v : Variable A M) (sid : Nat) :
    VariableState A M :=
  { id := sid
    type := v.ty
    value := v.raw_value
    get_value_hooks := v.get_value_hooks
    set_value_hooks := v.set_value_hooks
    create_value_hooks := v.create_value_hooks
    add_axis_hooks := v.add_axis_hooks
    remove_axis_hooks := v.remove_axis_hooks
    metadata := v.metadata }

/-- `VariableState.to_variable()`: `object.__new__(self.type)` (a fresh
allocation `vid`), then fill `vars` with the snapshot's metadata,
`raw_value := self.value` and a brand-new `TraceState()` stamped with the
current epoch `cur`. -/
def VariableState.to_variable {A M : Type} (s : VariableState A M)
    (vid cur : Nat) : Variable A M :=
  { id := vid
    ty := s.type
    raw_value := s.value
    get_value_hooks := s.get_value_hooks
    set_value_hooks := s.set_value_hooks
    create_value_hooks := s.create_value_hooks
    add_axis_hooks := s.add_axis_hooks
    remove_axis_hooks := s.remove_axis_hooks
    metadata := s.metadata
    traceState := cur }

/-- `VariableState.get_metadata()` as a record of everything except `type`,
`value` and the identity: used to state content equality. -/
def VariableState.contentEq {A M : Type} (s1 s2 : VariableState A M) : Prop :=
  s1.type = s2.type ∧ s1.value = s2.value
    ∧ s1.get_value_hooks = s2.get_value_hooks
    ∧ s1.set_value_hooks = s2.set_value_hooks
    ∧ s1.create_value_hooks = s2.create_value_hooks
    ∧ s1.add_axis_hooks = s2.add_axis_hooks
    ∧ s1.remove_axis_hooks = s2.remove_axis_hooks
    ∧ s1.metadata = s2.metadata

instance {A M : Type} [DecidableEq A] [DecidableEq M]
    (s1 s2 : VariableState A M) : Decidable (s1.contentEq s2) := by
  unfold VariableState.contentEq; infer_instance

/-- Python `==` on `VariableState`: the class defines no `__eq__`, so the
comparison falls back to `object.__eq__`, which is reference identity. -/
def VariableState.pyEq {A M : Type} (s1 s2 : VariableState A M) : Bool :=
  s1.id == s2.id

/-- The message of the error raised by `replace` when the replacement value
is a `Variable` of an incompatible concrete type. -/
def replaceMsg (want got : VarTy) : String :=
  "Cannot replace value from incompatible container, expected " ++ want.name
    ++ ", got " ++ got.name

/-- `attributes.update(**kwargs)` of `replace`: fold the keyword updates
over the attribute dictionary. -/
def applyKwargs {A M : Type} (v : Variable A M)
    (kwargs : List (String × Attr A M)) : Variable A M :=
  kwargs.foldl (fun acc kv => objectSetattr acc kv.1 kv.2) v

/-- The tail of `replace`: `attributes = vars(self).copy()`;
`attributes.update(**kwargs)`; `obj = object.__new__(type(self))` (fresh
identity); `vars(obj).update(attributes)`.  The copied attributes include
`self`'s `_trace_state`. -/
def replaceNew {A M : Type} (v : Variable A M)
    (kwargs : List (String × Attr A M)) (fresh : Nat) : Variable A M :=
  applyKwargs { v with id := fresh } kwargs

/-- `Variable.replace(value, **kwargs)`.  The positional `value` (or the
`value`/`raw_value` keyword, folded into `value?` here) becomes the
`raw_value` entry of the updates; if that replacement value is itself a
`Variable`, the source checks type compatibility and returns that very
variable (recursing into it first when other keyword updates remain)
instead of allocating; otherwise a fresh object is built from `self`'s
attributes plus the updates. -/
def Variable.replace {A M : Type} (v : Variable A M)
    (value? : Option (ValOrVar A M)) (kwargs : List (String × Attr A M))
    (fresh : Nat) : Except PyErr (Variable A M) :=
  match value? with
  | some (.var w) =>
      if v.ty ≠ w.ty then
        .error (.typeMismatch (replaceMsg v.ty w.ty))
      else if kwargs.isEmpty then
        .ok w
      else
        .ok (replaceNew w kwargs fresh)
  | some (.plain a) => .ok (replaceNew { v with raw_value := a } kwargs fresh)
  | none => .ok (replaceNew v kwargs fresh)

/-- The attribute names that live outside the open metadata map. -/
def reservedNames : List String :=
  ["raw_value", "get_value_hooks", "set_value_hooks", "create_value_hooks",
   "add_axis_hooks", "remove_axis_hooks"]

/-!
The second half of the file models the graph flatten/unflatten engine
(`flax/nnx/graph.py`).  That module is not part of the sources at hand —
only its test suite (`flax/nnx/tests/graph_utils_test.py`) is — so the
definitions below are modelled from the specification's description of the
flatten and unflatten contracts (spec sections 4.2 and 4.3, data model
section 3) and are marked accordingly.

A live graph lives in an explicit heap: graph nodes (containers) and
`Variable`s are identified by addresses; a reference is a variable
address, a node address, or an opaque static leaf.  Object identity (`is`)
is address equality.
-/

/-- Modelled from the spec: a structural key within a graph node (sequence
index or attribute/dict key). -/
inductive Key where
  | idx (n : Nat)
  | name (s : String)
deriving DecidableEq, Repr

/-- Modelled from the spec: a reference held by a graph node — a
`Variable` at a heap address, a child graph node at a heap address, or an
opaque static leaf value. -/
inductive Ref (A : Type) where
  | var (addr : Nat)
  | node (addr : Nat)
  | leaf (x : A)
deriving DecidableEq, Repr

/-- Modelled from the spec: the live object graph, as a heap mapping node
addresses to a node type tag plus an ordered child list (already in the
canonical traversal order), and variable addresses to `Variable`
objects. -/
structure GraphHeap (A M : Type) where
  nodes : List (Nat × (String × List (Key × Ref A)))
  gvars : List (Nat × Variable A M)
deriving Repr

/-- Modelled from the spec: object identity as used by the `RefMap` — a
variable address or a node address (the two address spaces are kept apart
by the tag). -/
inductive ObjId where
  | varId (addr : Nat)
  | nodeId (addr : Nat)
deriving DecidableEq, Repr

/-- Modelled from the spec (`flax/nnx/graph.py` missing from the sources):
`GraphDef`, the immutable structural description of a traversed graph.  A
`nodeDef` records the first occurrence of a container (type tag, identity
index, ordered children); a `varDef` is the leaf-variable slot emitted for
the first occurrence of a `Variable` (its `VariableState` goes to the
`State` at the corresponding path); a `nodeRef` records only the index of
an already-emitted node or variable — how shared references and cycles are
represented; a `leafDef` is an opaque static leaf. -/
inductive GraphDef (A : Type) where
  | nodeDef (ty : String) (index : Nat) (children : List (Key × GraphDef A))
  | varDef (index : Nat)
  | nodeRef (index : Nat)
  | leafDef (x : A)
deriving Repr

/-- A structural path from the root, and the `State` — the ordered
path-keyed flat mapping from paths to `VariableState` snapshots. -/
abbrev GPath := List Key

/-- Modelled from the spec: the mutable context threaded through one
flatten pass — the `RefMap` (identity to index), the next identity index,
the `State` accumulated in traversal order, and an allocator for the
snapshot objects' identities. -/
structure FlatCtx (A M : Type) where
  refmap : List (ObjId × Nat)
  nextIndex : Nat
  state : List (GPath × VariableState A M)
  nextSid : Nat
deriving Repr

mutual

/-- Modelled from the spec (flatten contract, spec section 4.2): traverse
the root depth-first in the canonical child order.  A `Variable` gets the
next identity index if unseen — emitting a leaf-variable slot and
appending `(path, variable.to_state())` to the `State` — and otherwise
contributes nothing new to the `State`, the slot becoming a reference to
the existing index.  A container gets an index if unseen, is recursed
into, and yields a `NodeDef`; if already seen it yields a `NodeRef` and is
not recursed into (breaking cycles).  Anything else is an opaque leaf.
`fuel` bounds the traversal depth (`none` = out of fuel or a dangling heap
address). -/
def flattenRef {A M : Type} :
    Nat → GraphHeap A M → Ref A → GPath → FlatCtx A M →
      Option (GraphDef A × FlatCtx A M)
  | 0, _, _, _, _ => none
  | _ + 1, _, .leaf x, _, ctx => some (.leafDef x, ctx)
  | _ + 1, h, .var a, path, ctx =>
      match lookupA ctx.refmap (.varId a) with
      | some i => some (.nodeRef i, ctx)
      | none =>
          match lookupA h.gvars a with
          | none => none
          | some v =>
              some (.varDef ctx.nextIndex,
                { refmap := (ObjId.varId a, ctx.nextIndex) :: ctx.refmap
                  nextIndex := ctx.nextIndex + 1
                  state := ctx.state ++ [(path, v.to_state ctx.nextSid)]
                  nextSid := ctx.nextSid + 1 })
  | fuel + 1, h, .node a, path, ctx =>
      match lookupA ctx.refmap (.nodeId a) with
      | some i => some (.nodeRef i, ctx)
      | none =>
          match lookupA h.nodes a with
          | none => none
          | some (ty, children) =>
              let i := ctx.nextIndex
              match flattenChildren fuel h children path
                  { ctx with
                    refmap := (ObjId.nodeId a, i) :: ctx.refmap
                    nextIndex := i + 1 } with
              | none => none
              | some (cgd, ctx') => some (.nodeDef ty i cgd, ctx')
termination_by fuel _ _ _ _ => (fuel, 0)

/-- Modelled from the spec: flatten the children of a node in order,
extending the path with each child's key. -/
def flattenChildren {A M : Type} :
    Nat → GraphHeap A M → List (Key × Ref A) → GPath → FlatCtx A M →
      Option (List (Key × GraphDef A) × FlatCtx A M)
  | _, _, [], _, ctx => some ([], ctx)
  | fuel, h, (k, r) :: rest, path, ctx =>
      match flattenRef fuel h r (path ++ [k]) ctx with
      | none => none
      | some (gd, ctx') =>
          match flattenChildren fuel h rest path ctx' with
          | none => none
          | some (cgd, ctx'') => some ((k, gd) :: cgd, ctx'')
termination_by fuel _ cs _ _ => (fuel, cs.length + 1)

end

/-- Modelled from the spec: `flatten(root, ref_index) -> (GraphDef,
State)`, starting from a (possibly pre-populated) `RefMap`. -/
def flatten {A M : Type} (fuel : Nat) (h : GraphHeap A M) (root : Ref A)
    (refmap : List (ObjId × Nat)) :
    Option (GraphDef A × List (GPath × VariableState A M) × List (ObjId × Nat)) :=
  match flattenRef fuel h root []
      { refmap := refmap, nextIndex := refmap.length, state := [], nextSid := 0 } with
  | none => none
  | some (gd, ctx) => some (gd, ctx.state, ctx.refmap)

/-- Modelled from the spec (error taxonomy, spec section 7):
`structureMismatch` — the `State` and the `GraphDef` disagree on shape (an
expected key is missing); `structureCorruption` — a `NodeRef` to an index
that was never registered. -/
inductive GraphErr where
  | structureMismatch (path : GPath)
  | structureCorruption (index : Nat)
deriving DecidableEq, Repr

/-- The user-facing message of a graph reconstruction error (the
structure-mismatch message is the `Expected key ... not found` error of
the test suite). -/
def GraphErr.message : GraphErr → String
  | .structureMismatch _ => "Expected key not found"
  | .structureCorruption _ => "Structural corruption: dangling reference"

/-- Modelled from the spec: the mutable context threaded through one
unflatten pass — the heap under (re)construction, the `index_ref` map from
identity indices to the objects already reconstructed in this call, and
the address allocator. -/
structure UnflatCtx (A M : Type) where
  heap : GraphHeap A M
  indexRef : List (Nat × Ref A)
  fresh : Nat
deriving Repr

/-- Replace (or add) the binding of a node address in the heap: the
in-place mutation of an existing object's fields. -/
def setNode {A M : Type} (h : GraphHeap A M) (addr : Nat)
    (obj : String × List (Key × Ref A)) : GraphHeap A M :=
  { h with nodes := insertA h.nodes addr obj }

/-- Add a freshly allocated variable to the heap. -/
def addVar {A M : Type} (h : GraphHeap A M) (addr : Nat)
    (v : Variable A M) : GraphHeap A M :=
  { h with gvars := insertA h.gvars addr v }

mutual

/-- Modelled from the spec (unflatten contract, spec section 4.3):
reconstruct depth-first.  A `NodeDef` obtains its object — the existing
object from `index_ref_cache` when its index is present there (reused in
place, its fields mutated to match the new `State`), a fresh allocation
otherwise — registers it under its index in `index_ref` before recursing,
reconstructs the children, and finally attaches them.  A leaf-variable
slot takes the `VariableState` at its path from the `State` — a missing
path is a `StructureMismatch` error — and becomes a fresh `Variable` via
`to_variable`, registered under its index.  A `NodeRef` resolves through
`index_ref`; an unregistered index is a `StructureCorruption` error.
`cur` is the current trace epoch stamped on reconstructed variables. -/
def unflattenDef {A M : Type} (state : List (GPath × VariableState A M))
    (cache : List (Nat × Ref A)) (cur : Nat) :
    GraphDef A → GPath → UnflatCtx A M → Except GraphErr (Ref A × UnflatCtx A M)
  | .leafDef x, _, ctx => .ok (.leaf x, ctx)
  | .nodeRef i, _, ctx =>
      match lookupA ctx.indexRef i with
      | some r => .ok (r, ctx)
      | none => .error (.structureCorruption i)
  | .varDef i, path, ctx =>
      match lookupA state path with
      | none => .error (.structureMismatch path)
      | some vs =>
          let a := ctx.fresh
          .ok (.var a,
            { heap := addVar ctx.heap a (vs.to_variable a cur)
              indexRef := (i, .var a) :: ctx.indexRef
              fresh := a + 1 })
  | .nodeDef ty i children, path, ctx =>
      let (addr, ctx₁) :=
        match lookupA cache i with
        | some (.node a) => (a, ctx)
        | _ => (ctx.fresh, { ctx with fresh := ctx.fresh + 1 })
      let ctx₂ := { ctx₁ with indexRef := (i, Ref.node addr) :: ctx₁.indexRef }
      match unflattenChildren state cache cur children path ctx₂ with
      | .error e => .error e
      | .ok (cs, ctx₃) => .ok (.node addr, { ctx₃ with heap := setNode ctx₃.heap addr (ty, cs) })

/-- Modelled from the spec: reconstruct the children of a node in order,
extending the path with each child's key. -/
def unflattenChildren {A M : Type} (state : List (GPath × VariableState A M))
    (cache : List (Nat × Ref A)) (cur : Nat) :
    List (Key × GraphDef A) → GPath → UnflatCtx A M →
      Except GraphErr (List (Key × Ref A) × UnflatCtx A M)
  | [], _, ctx => .ok ([], ctx)
  | (k, gd) :: rest, path, ctx =>
      match unflattenDef state cache cur gd (path ++ [k]) ctx with
      | .error e => .error e
      | .ok (r, ctx') =>
          match unflattenChildren state cache cur rest path ctx' with
          | .error e => .error e
          | .ok (cs, ctx'') => .ok ((k, r) :: cs, ctx'')

end

/-- Modelled from the spec: `unflatten(graphdef, state, index_ref?,
index_ref_cache?) -> root`, reconstructing into (and mutating) the given
heap — the empty heap for a standalone call, the live heap of the original
objects for a cached call. -/
def unflatten {A M : Type} (gd : GraphDef A)
    (state : List (GPath × VariableState A M))
    (cache : List (Nat × Ref A)) (cur : Nat) (h : GraphHeap A M)
    (fresh : Nat) : Except GraphErr (Ref A × UnflatCtx A M) :=
  unflattenDef state cache cur gd [] { heap := h, indexRef := [], fresh := fresh }

mutual

/-- Does a `GraphDef` contain at least one leaf-variable slot? -/
def hasVar {A : Type} : GraphDef A → Bool
  | .varDef _ => true
  | .nodeDef _ _ cs => hasVarChildren cs
  | _ => false

/-- Does any child contain a leaf-variable slot? -/
def hasVarChildren {A : Type} : List (Key × GraphDef A) → Bool
  | [] => false
  | (_, gd) :: rest => hasVar gd || hasVarChildren rest

end

mutual

/-- The spec's structural invariant on a `GraphDef`: every `NodeRef`
resolves to an index registered earlier in the canonical traversal
(dangling references are structural corruption and never occur in this
engine's own output).  The checker threads the set of indices registered
so far and returns `none` on a dangling reference. -/
def checkRefs {A : Type} : GraphDef A → List Nat → Option (List Nat)
  | .leafDef _, seen => some seen
  | .varDef i, seen => some (i :: seen)
  | .nodeRef i, seen => if i ∈ seen then some seen else none
  | .nodeDef _ i cs, seen => checkRefsChildren cs (i :: seen)

/-- `checkRefs` over a child list, left to right. -/
def checkRefsChildren {A : Type} :
    List (Key × GraphDef A) → List Nat → Option (List Nat)
  | [], seen => some seen
  | (_, gd) :: rest, seen =>
      match checkRefs gd seen with
      | none => none
      | some seen' => checkRefsChildren rest seen'

end

/-- A well-formed `GraphDef`: the dangling-reference check succeeds
starting from no registered indices. -/
def wellFormed {A : Type} (gd : GraphDef A) : Prop :=
  ∃ seen, checkRefs gd [] = some seen

mutual

/-- All identity indices occurring in a `GraphDef`. -/
def defIndices {A : Type} : GraphDef A → List Nat
  | .nodeDef _ i cs => i :: defIndicesChildren cs
  | .varDef i => [i]
  | .nodeRef i => [i]
  | .leafDef _ => []

/-- All identity indices occurring in a child list. -/
def defIndicesChildren {A : Type} : List (Key × GraphDef A) → List Nat
  | [] => []
  | (_, gd) :: rest => defIndices gd ++ defIndicesChildren rest

end

/-- The claimed sharing scenario: a two-element list whose entries both
reference the same `Variable` (at address 5). -/
def sharedPairHeap {A M : Type} (v : Variable A M) : GraphHeap A M :=
  { nodes := [(0, ("list", [(.idx 0, .var 5), (.idx 1, .var 5)]))]
    gvars := [(5, v)] }

mutual

/-- Proof engine for unflattening from an empty `State` under the
well-formedness invariant (every `NodeRef` index registered earlier): a
`GraphDef` containing a leaf-variable slot fails with a
structure-mismatch error, while a variable-free one reconstructs
successfully, keeping every registered index resolvable in `index_ref`. -/
def unflattenEmptyP {A M : Type} (cache : List (Nat × Ref A)) (cur : Nat) :
    (gd : GraphDef A) → (path : GPath) → (ctx : UnflatCtx A M) →
      (seen seen' : List Nat) →
      checkRefs gd seen = some seen' →
      (∀ i ∈ seen, (lookupA ctx.indexRef i).isSome = true) →
      (hasVar gd = true →
        ∃ p, unflattenDef ([] : List (GPath × VariableState A M)) cache cur
            gd path ctx = .error (.structureMismatch p))
      ∧ (hasVar gd = false →
        ∃ r ctx', unflattenDef ([] : List (GPath × VariableState A M)) cache
              cur gd path ctx = .ok (r, ctx')
          ∧ ∀ i ∈ seen', (lookupA ctx'.indexRef i).isSome = true)
  | .leafDef x, _, ctx, seen, seen', hchk, hinv => by
      refine ⟨fun hv => by simp [hasVar] at hv, fun _ => ?_⟩
      simp only [checkRefs, Option.some.injEq] at hchk
      subst hchk
      exact ⟨.leaf x, ctx, rfl, hinv⟩
  | .varDef i, path, ctx, _, _, _, _ => by
      refine ⟨fun _ => ⟨path, rfl⟩, fun hv => by simp [hasVar] at hv⟩
  | .nodeRef i, _, ctx, seen, seen', hchk, hinv => by
      refine ⟨fun hv => by simp [hasVar] at hv, fun _ => ?_⟩
      simp only [checkRefs] at hchk
      by_cases hmem : i ∈ seen
      · rw [if_pos hmem, Option.some.injEq] at hchk
        subst hchk
        obtain ⟨r, hr⟩ := Option.isSome_iff_exists.mp (hinv i hmem)
        refine ⟨r, ctx, ?_, hinv⟩
        show (match lookupA ctx.indexRef i with
          | some r => Except.ok (r, ctx)
          | none =>
              Except.error (GraphErr.structureCorruption i)) = Except.ok (r, ctx)
        rw [hr]
      · rw [if_neg hmem] at hchk
        exact absurd hchk (by simp)
  | .nodeDef ty i children, path, ctx, seen, seen', hchk, hinv => by
      simp only [checkRefs] at hchk
      have hsplit : ∃ addr f,
          (match lookupA cache i with
            | some (.node a) => (a, ctx)
            | _ => (ctx.fresh, { ctx with fresh := ctx.fresh + 1 }))
            = (addr, { ctx with fresh := f }) := by
        rcases lookupA cache i with _ | r
        · exact ⟨ctx.fresh, ctx.fresh + 1, rfl⟩
        · rcases r with a | a | x
          · exact ⟨ctx.fresh, ctx.fresh + 1, rfl⟩
          · exact ⟨a, ctx.fresh, rfl⟩
          · exact ⟨ctx.fresh, ctx.fresh + 1, rfl⟩
      obtain ⟨addr, f, hm⟩ := hsplit
      have hrun : unflattenDef ([] : List (GPath × VariableState A M)) cache
          cur (.nodeDef ty i children) path ctx
          = match unflattenChildren ([] : List (GPath × VariableState A M))
              cache cur children path
              (⟨ctx.heap, (i, Ref.node addr) :: ctx.indexRef, f⟩ : UnflatCtx A M) with
          | .error e => .error e
          | .ok (cs, ctx₃) =>
              .ok (.node addr, { ctx₃ with heap := setNode ctx₃.heap addr (ty, cs) }) := by
        show (match
            (match lookupA cache i with
              | some (.node a) => (a, ctx)
              | _ => (ctx.fresh, { ctx with fresh := ctx.fresh + 1 })) with
          | (addr, ctx₁) =>
            match unflattenChildren ([] : List (GPath × VariableState A M))
                cache cur children path
                { ctx₁ with indexRef := (i, Ref.node addr) :: ctx₁.indexRef } with
            | .error e => Except.error e
            | .ok (cs, ctx₃) =>
                Except.ok (Ref.node addr,
                  { ctx₃ with heap := setNode ctx₃.heap addr (ty, cs) })) = _
        rw [hm]
      have hinv₂ : ∀ j ∈ i :: seen,
          (lookupA ((⟨ctx.heap, (i, Ref.node addr) :: ctx.indexRef, f⟩ :
            UnflatCtx A M)).indexRef j).isSome = true := by
        intro j hj
        simp only [lookupA]
        by_cases hji : j = i
        · simp [hji]
        · rw [if_neg hji]
          exact hinv j (by simpa [hji] using hj)
      have Q := unflattenEmptyQ cache cur children path
        (⟨ctx.heap, (i, Ref.node addr) :: ctx.indexRef, f⟩ : UnflatCtx A M)
        (i :: seen) seen' hchk hinv₂
      constructor
      · intro hv
        simp only [hasVar] at hv
        obtain ⟨p, herr⟩ := Q.1 hv
        exact ⟨p, by rw [hrun, herr]⟩
      · intro hv
        simp only [hasVar] at hv
        obtain ⟨cs, ctx₃, hok, hinv₃⟩ := Q.2 hv
        exact ⟨.node addr, { ctx₃ with heap := setNode ctx₃.heap addr (ty, cs) },
          by rw [hrun, hok], hinv₃⟩

/-- Child-list companion of `unflattenEmptyP`. -/
def unflattenEmptyQ {A M : Type} (cache : List (Nat × Ref A)) (cur : Nat) :
    (cs : List (Key × GraphDef A)) → (path : GPath) → (ctx : UnflatCtx A M) →
      (seen seen' : List Nat) →
      checkRefsChildren cs seen = some seen' →
      (∀ i ∈ seen, (lookupA ctx.indexRef i).isSome = true) →
      (hasVarChildren cs = true →
        ∃ p, unflattenChildren ([] : List (GPath × VariableState A M)) cache
            cur cs path ctx = .error (.structureMismatch p))
      ∧ (hasVarChildren cs = false →
        ∃ rs ctx', unflattenChildren ([] : List (GPath × VariableState A M))
              cache cur cs path ctx = .ok (rs, ctx')
          ∧ ∀ i ∈ seen', (lookupA ctx'.indexRef i).isSome = true)
  | [], _, ctx, seen, seen', hchk, hinv => by
      refine ⟨fun hv => by simp [hasVarChildren] at hv, fun _ => ?_⟩
      simp only [checkRefsChildren, Option.some.injEq] at hchk
      subst hchk
      exact ⟨[], ctx, rfl, hinv⟩
  | (k, gd) :: rest, path, ctx, seen, seen', hchk, hinv => by
      simp only [checkRefsChildren] at hchk
      rcases h1 : checkRefs gd seen with _ | s1
      · rw [h1] at hchk
        exact absurd hchk (by simp)
      · rw [h1] at hchk
        have P := unflattenEmptyP cache cur gd (path ++ [k]) ctx seen s1 h1 hinv
        by_cases hv1 : hasVar gd = true
        · obtain ⟨p, herr⟩ := P.1 hv1
          refine ⟨fun _ => ⟨p, ?_⟩, fun hv => by simp [hasVarChildren, hv1] at hv⟩
          show (match unflattenDef ([] : List (GPath × VariableState A M))
              cache cur gd (path ++ [k]) ctx with
            | .error e => Except.error e
            | .ok (r, ctx') =>
                match unflattenChildren ([] : List (GPath × VariableState A M))
                    cache cur rest path ctx' with
                | .error e => Except.error e
                | .ok (cs', ctx'') =>
                    Except.ok ((k, r) :: cs', ctx'')) = _
          rw [herr]
        · obtain ⟨r, ctx', hok, hinv'⟩ := P.2 (by simpa using hv1)
          have Q := unflattenEmptyQ cache cur rest path ctx' s1 seen' hchk hinv'
          have hstep : unflattenChildren
              ([] : List (GPath × VariableState A M)) cache cur
              ((k, gd) :: rest) path ctx
              = match unflattenChildren ([] : List (GPath × VariableState A M))
                  cache cur rest path ctx' with
                | .error e => .error e
                | .ok (cs', ctx'') => .ok ((k, r) :: cs', ctx'') := by
            show (match unflattenDef ([] : List (GPath × VariableState A M))
                cache cur gd (path ++ [k]) ctx with
              | .error e => Except.error e
              | .ok (r, ctx') =>
                  match unflattenChildren ([] : List (GPath × VariableState A M))
                      cache cur rest path ctx' with
                  | .error e => Except.error e
                  | .ok (cs', ctx'') =>
                      Except.ok ((k, r) :: cs', ctx'')) = _
            rw [hok]
          constructor
          · intro hv
            simp only [hasVarChildren, Bool.or_eq_true] at hv
            rcases hv with hv | hv
            · exact absurd hv hv1
            · obtain ⟨p, herr⟩ := Q.1 hv
              exact ⟨p, by rw [hstep, herr]⟩
          · intro hv
            simp only [hasVarChildren] at hv
            cases hrest : hasVarChildren rest with
            | true => rw [hrest] at hv; simp at hv
            | false =>
                obtain ⟨cs', ctx'', hok2, hinv''⟩ := Q.2 hrest
                exact ⟨(k, r) :: cs', ctx'', by rw [hstep, hok2], hinv''⟩

end

theorem objectSetattr_unreserved {A M : Type} (v : Variable A M)
    (name : String) (x : Attr A M) (h : name ∉ reservedNames) :
    objectSetattr v name x = { v with metadata := insertA v.metadata name x } := by
  simp only [reservedNames, List.mem_cons, List.not_mem_nil, or_false,
    not_or] at h
  obtain ⟨h1, h2, h3, h4, h5, h6⟩ := h
  cases x <;> simp [objectSetattr, h1, h2, h3, h4, h5, h6]

theorem applyKwargs_spec {A M : Type} (kwargs : List (String × Attr A M))
    (v : Variable A M) (hk : ∀ p ∈ kwargs, p.1 ∉ reservedNames) :
    applyKwargs v kwargs =
      { v with metadata :=
          kwargs.foldl (fun md kv => insertA md kv.1 kv.2) v.metadata } := by
  induction kwargs generalizing v with
  | nil => simp [applyKwargs]
  | cons p rest ih =>
      have hp : p.1 ∉ reservedNames := hk p (List.mem_cons_self p rest)
      have hrest : ∀ q ∈ rest, q.1 ∉ reservedNames := fun q hq =>
        hk q (List.mem_cons_of_mem p hq)
      simp only [applyKwargs, List.foldl_cons] at *
      rw [objectSetattr_unreserved v p.1 p.2 hp]
      exact ih _ hrest

theorem applyGetHooks_eq_foldl {A M : Type} (env : HookEnv A M)
    (v : Variable A M) (hs : List Nat) (a : A) :
    applyGetHooks env v hs a
      = hs.foldl (fun value h => env.getHook h v value) a := by
  induction hs generalizing a with
  | nil => rfl
  | cons h rest ih => simp [applyGetHooks, ih]

theorem applySetHooks_eq_foldlM {A M : Type} (env : HookEnv A M)
    (v : Variable A M) (hs : List Nat) (a : A) :
    applySetHooks env v hs a
      = hs.foldlM (fun value h => env.setHook h v value) a := by
  induction hs generalizing a with
  | nil => rfl
  | cons h rest ih =>
      simp only [applySetHooks, List.foldlM_cons]
      cases env.setHook h v a with
      | error e => rfl
      | ok a' => simpa using ih a'

/-- C4.  Stale-epoch mutation fails fast: when the trace epoch stamped on a
`Variable` is no longer the current one, every attribute write through
`_setattr` raises `TraceContextError` and leaves the object unchanged, and
so does an assignment to `.value` (provided its set-value hooks do not
reject the incoming value first), since the final `raw_value` store routes
through `_setattr`. -/
theorem stale_epoch_mutation_fails_fast {A M : Type} (v : Variable A M)
    (cur : Nat) (h : isValidTrace v.traceState cur = false) :
    (∀ (name : String) (x : Attr A M),
        v.setattr_ name x cur
          = (some (.traceContextError (mutateMsg v.ty)), v))
    ∧ (∀ (env : HookEnv A M) (a a' : A),
        applySetHooks env v v.set_value_hooks a = .ok a' →
        valueSet env v (.plain a) cur
          = (some (.traceContextError (mutateMsg v.ty)), v)) := by
  constructor
  · intro name x
    simp [Variable.setattr_, h]
  · intro env a a' hok
    simp [valueSet, hok, Variable.setattr_, h]

/-- C4 witness: a concrete stale variable (stamped epoch 1, current epoch
0) rejects an attribute write and is left unchanged. -/
theorem stale_epoch_mutation_fails_fast_witness :
    (let v : Variable Nat Nat :=
      { id := 0, ty := .param, raw_value := 5, get_value_hooks := [],
        set_value_hooks := [], create_value_hooks := [], add_axis_hooks := [],
        remove_axis_hooks := [], metadata := [], traceState := 1 }
    v.setattr_ "raw_value" (.val 7) 0
      = (some (.traceContextError (mutateMsg .param)), v)) :=
  (stale_epoch_mutation_fails_fast _ 0 (by decide)).1 "raw_value" (.val 7)

/-- C5 counterexample: two `VariableState` instances with identical type
tag, value, and metadata but distinct identities compare unequal under
Python `==` (the class defines no `__eq__`, so `==` is reference
identity), refuting the claimed value-equality. -/
theorem variablestate_content_eq_not_pyeq :
    (let s1 : VariableState Nat Nat :=
      { id := 0, type := .param, value := 1, get_value_hooks := [],
        set_value_hooks := [], create_value_hooks := [], add_axis_hooks := [],
        remove_axis_hooks := [], metadata := [] }
    let s2 : VariableState Nat Nat :=
      { id := 1, type := .param, value := 1, get_value_hooks := [],
        set_value_hooks := [], create_value_hooks := [], add_axis_hooks := [],
        remove_axis_hooks := [], metadata := [] }
    s1.contentEq s2 ∧ s1.pyEq s2 = false) := by
  constructor
  · decide
  · decide

/-- C5 (amended).  `VariableState` defines no value equality: `==` falls
back to object identity, so `s1 == s2` holds iff `s1` and `s2` are the
same instance, and every instance compares equal to itself; two distinct
instances built from the same type, value, and metadata compare
unequal. -/
theorem variablestate_pyeq_is_identity {A M : Type}
    (s1 s2 : VariableState A M) :
    (s1.pyEq s2 = true ↔ s1.id = s2.id) ∧ s1.pyEq s1 = true := by
  constructor
  · simp [VariableState.pyEq]
  · simp [VariableState.pyEq]

/-- C6 counterexample: when the replacement value is itself a `Variable`
of the same concrete type and no other keyword updates are given,
`replace` returns that very variable — a pre-existing object (its identity
is not the fresh allocation), and it does not carry `v`'s hooks — so the
claim that `replace` always returns a new instance preserving `v`'s hooks
fails. -/
theorem replace_variable_arg_returns_existing :
    (let v : Variable Nat Nat :=
      { id := 0, ty := .param, raw_value := 1, get_value_hooks := [1],
        set_value_hooks := [], create_value_hooks := [], add_axis_hooks := [],
        remove_axis_hooks := [], metadata := [], traceState := 0 }
    let w : Variable Nat Nat :=
      { id := 1, ty := .param, raw_value := 2, get_value_hooks := [2],
        set_value_hooks := [], create_value_hooks := [], add_axis_hooks := [],
        remove_axis_hooks := [], metadata := [], traceState := 0 }
    v.replace (some (.var w)) [] 99 = .ok w
      ∧ w.id ≠ 99 ∧ w.get_value_hooks ≠ v.get_value_hooks) := by
  refine ⟨rfl, by decide, by decide⟩

/-- C6 (amended).  For every non-`Variable` replacement value (and for
keyword-only calls) whose keyword updates do not touch the reserved
attribute names, `replace` returns a freshly allocated `Variable` of the
same dynamic type carrying the updated value and metadata, preserving
`v`'s hooks (and sharing its trace state), with `v` itself untouched;
when the replacement value is a `Variable` of the same type and there are
no other updates, `replace` instead returns that variable itself. -/
theorem replace_plain_value_fresh_instance {A M : Type} (v : Variable A M)
    (a : A) (kwargs : List (String × Attr A M)) (fresh : Nat)
    (hk : ∀ p ∈ kwargs, p.1 ∉ reservedNames) (hf : fresh ≠ v.id) :
    (∃ r, v.replace (some (.plain a)) kwargs fresh = .ok r
      ∧ r.id = fresh ∧ r.id ≠ v.id ∧ r.ty = v.ty ∧ r.raw_value = a
      ∧ r.get_value_hooks = v.get_value_hooks
      ∧ r.set_value_hooks = v.set_value_hooks
      ∧ r.metadata = kwargs.foldl (fun md kv => insertA md kv.1 kv.2) v.metadata
      ∧ r.traceState = v.traceState)
    ∧ (∃ r, v.replace none kwargs fresh = .ok r
      ∧ r.id = fresh ∧ r.raw_value = v.raw_value ∧ r.ty = v.ty
      ∧ r.get_value_hooks = v.get_value_hooks) := by
  constructor
  · refine ⟨replaceNew { v with raw_value := a } kwargs fresh, rfl, ?_⟩
    rw [replaceNew, applyKwargs_spec kwargs _ hk]
    exact ⟨rfl, hf, rfl, rfl, rfl, rfl, rfl, rfl⟩
  · refine ⟨replaceNew v kwargs fresh, rfl, ?_⟩
    rw [replaceNew, applyKwargs_spec kwargs _ hk]
    exact ⟨rfl, rfl, rfl, rfl⟩

/-- C6 witness: a concrete plain-value `replace` allocates a fresh
variable carrying the new value and the old hooks. -/
theorem replace_plain_value_fresh_instance_witness :
    (let v : Variable Nat Nat :=
      { id := 0, ty := .param, raw_value := 1, get_value_hooks := [1],
        set_value_hooks := [2], create_value_hooks := [], add_axis_hooks := [],
        remove_axis_hooks := [], metadata := [], traceState := 0 }
    ∃ r, v.replace (some (.plain 7)) [("sharding", .meta 3)] 42 = .ok r
      ∧ r.id = 42 ∧ r.id ≠ v.id ∧ r.ty = v.ty ∧ r.raw_value = 7
      ∧ r.get_value_hooks = v.get_value_hooks
      ∧ r.set_value_hooks = v.set_value_hooks
      ∧ r.metadata = [("sharding", Attr.meta 3)]
      ∧ r.traceState = v.traceState) :=
  (replace_plain_value_fresh_instance _ 7 [("sharding", .meta 3)] 42
    (by decide) (by decide)).1

/-- C7.  Hooks apply in registration order: reading `.value` folds the
get-value hooks left-to-right over `raw_value` (so with hooks
`h1, ..., hn` the result is `hn(v, ... h1(v, raw_value) ...)`); assigning
`.value` folds the set-value hooks left-to-right over the incoming value —
aborting with the hook's error if one rejects — and stores the folded
result as `raw_value`. -/
theorem value_hooks_fold_in_registration_order {A M : Type}
    (env : HookEnv A M) (v : Variable A M) (a : A) (cur : Nat) :
    valueGet env v
      = v.get_value_hooks.foldl (fun value h => env.getHook h v value)
          v.raw_value
    ∧ (∀ e, v.set_value_hooks.foldlM (fun value h => env.setHook h v value) a
          = .error e →
        valueSet env v (.plain a) cur = (some e, v))
    ∧ (∀ a', v.set_value_hooks.foldlM (fun value h => env.setHook h v value) a
          = .ok a' →
        isValidTrace v.traceState cur = true →
        valueSet env v (.plain a) cur = (none, { v with raw_value := a' })) := by
  refine ⟨?_, ?_, ?_⟩
  · rw [valueGet, applyGetHooks_eq_foldl]
  · intro e he
    rw [valueSet, applySetHooks_eq_foldlM, he]
  · intro a' ha hvalid
    rw [valueSet, applySetHooks_eq_foldlM, ha]
    simp [Variable.setattr_, hvalid, objectSetattr]

/-- C7 witness: with get hooks interpreted as `+1` then `*2` the read of a
raw value `3` yields `(3+1)*2 = 8` (not `3*2+1 = 7`), and with set hooks
`+3` then `*5` assigning `1` stores `(1+3)*5 = 20`. -/
theorem value_hooks_fold_in_registration_order_witness :
    (let env : HookEnv Nat Nat :=
      { getHook := fun h _ a => if h = 1 then a + 1 else a * 2
        setHook := fun h _ a => if h = 1 then .ok (a + 3) else .ok (a * 5) }
    let v : Variable Nat Nat :=
      { id := 0, ty := .param, raw_value := 3, get_value_hooks := [1, 2],
        set_value_hooks := [1, 2], create_value_hooks := [],
        add_axis_hooks := [], remove_axis_hooks := [], metadata := [],
        traceState := 0 }
    valueGet env v = 8
      ∧ valueSet env v (.plain 1) 0 = (none, { v with raw_value := 20 })) :=
  ⟨(value_hooks_fold_in_registration_order _ _ 1 0).1.trans (by decide),
   (value_hooks_fold_in_registration_order _ _ 1 0).2.2 20 rfl rfl⟩

/-- C8.  `copy_from` type compatibility: when the concrete dynamic types
of target and source differ, `copy_from` raises the type-mismatch error
and leaves the target's attributes unchanged; when the types agree the
copy raises nothing. -/
theorem copy_from_type_compatibility {A M : Type} (a b : Variable A M) :
    (a.ty ≠ b.ty →
        a.copy_from b = (some (.typeMismatch (copyFromMsg a.ty b.ty)), a))
    ∧ (a.ty = b.ty → (a.copy_from b).1 = none) := by
  constructor
  · intro hne
    simp [Variable.copy_from, hne]
  · intro heq
    rw [Variable.copy_from]
    simp only [heq]
    by_cases hid : a.id = b.id <;> simp [hid]

/-- C8 witness: copying from a `BatchStat` into a `Param` raises the
type-mismatch error and leaves the target unchanged; copying between two
`Param`s succeeds. -/
theorem copy_from_type_compatibility_witness :
    (let p : Variable Nat Nat :=
      { id := 0, ty := .param, raw_value := 1, get_value_hooks := [],
        set_value_hooks := [], create_value_hooks := [], add_axis_hooks := [],
        remove_axis_hooks := [], metadata := [], traceState := 0 }
    let q : Variable Nat Nat := { p with id := 1, ty := .batchStat }
    let r : Variable Nat Nat := { p with id := 2, raw_value := 9 }
    p.copy_from q
        = (some (.typeMismatch (copyFromMsg .param .batchStat)), p)
      ∧ (p.copy_from r).1 = none) :=
  ⟨(copy_from_type_compatibility _ _).1 (by decide),
   (copy_from_type_compatibility _ _).2 (by decide)⟩

/-- C9.  Snapshot round trip: `to_state` is an identity-free snapshot (its
content does not depend on the variable's identity), and
`to_state ∘ to_variable` yields a variable of the same dynamic type with
the same raw value, hooks, and metadata, stamped with a brand-new trace
state for the current epoch; a genuinely fresh allocation id makes it a
distinct instance from `v`, and `v` itself is not modified (both
operations only read it). -/
theorem snapshot_round_trip {A M : Type} (v : Variable A M)
    (sid vid cur : Nat) (hvalid : isValidTrace v.traceState cur = true) :
    (∀ j, Variable.to_state { v with id := j } sid = v.to_state sid)
    ∧ ((v.to_state sid).to_variable vid cur).ty = v.ty
    ∧ ((v.to_state sid).to_variable vid cur).raw_value = v.raw_value
    ∧ ((v.to_state sid).to_variable vid cur).get_value_hooks
        = v.get_value_hooks
    ∧ ((v.to_state sid).to_variable vid cur).set_value_hooks
        = v.set_value_hooks
    ∧ ((v.to_state sid).to_variable vid cur).metadata = v.metadata
    ∧ ((v.to_state sid).to_variable vid cur).traceState = cur
    ∧ (vid ≠ v.id → ((v.to_state sid).to_variable vid cur).id ≠ v.id) := by
  refine ⟨fun j => rfl, rfl, rfl, rfl, rfl, rfl, rfl, fun h => h⟩

/-- C9 witness: a concrete snapshot round trip reproduces type, value and
metadata in a fresh instance carrying the current epoch. -/
theorem snapshot_round_trip_witness :
    (let v : Variable Nat Nat :=
      { id := 0, ty := .param, raw_value := 4, get_value_hooks := [3],
        set_value_hooks := [], create_value_hooks := [], add_axis_hooks := [],
        remove_axis_hooks := [], metadata := [("tag", .meta 1)],
        traceState := 7 }
    ((v.to_state 10).to_variable 11 7).ty = v.ty
      ∧ ((v.to_state 10).to_variable 11 7).raw_value = v.raw_value
      ∧ ((v.to_state 10).to_variable 11 7).metadata = v.metadata
      ∧ ((v.to_state 10).to_variable 11 7).traceState = 7
      ∧ (11 ≠ v.id → ((v.to_state 10).to_variable 11 7).id ≠ v.id)) :=
  (fun h => ⟨h.2.1, h.2.2.1, h.2.2.2.2.2.1, h.2.2.2.2.2.2.1, h.2.2.2.2.2.2.2⟩)
    (snapshot_round_trip _ 10 11 7 (by decide))

/-- C10.  In-place overwrites keep the target's trace token: `copy_from`
between distinct compatible variables replaces every attribute of the
target with the source's attributes except the target's own
`_trace_state`; `update_from_state` replaces them with the snapshot's
value and metadata, again keeping the target's `_trace_state` (and its
dynamic type and identity); and `copy_from` is a no-op when source and
target are the same instance. -/
theorem inplace_overwrite_preserves_trace_state {A M : Type}
    (v w : Variable A M) (s : VariableState A M) :
    v.copy_from v = (none, v)
    ∧ (v.ty = w.ty → v.id ≠ w.id →
        v.copy_from w
          = (none,
              { id := v.id, ty := v.ty, raw_value := w.raw_value,
                get_value_hooks := w.get_value_hooks,
                set_value_hooks := w.set_value_hooks,
                create_value_hooks := w.create_value_hooks,
                add_axis_hooks := w.add_axis_hooks,
                remove_axis_hooks := w.remove_axis_hooks,
                metadata := w.metadata, traceState := v.traceState }))
    ∧ (v.update_from_state s).traceState = v.traceState
    ∧ (v.update_from_state s).id = v.id
    ∧ (v.update_from_state s).ty = v.ty
    ∧ (v.update_from_state s).raw_value = s.value
    ∧ (v.update_from_state s).get_value_hooks = s.get_value_hooks
    ∧ (v.update_from_state s).set_value_hooks = s.set_value_hooks
    ∧ (v.update_from_state s).metadata = s.metadata := by
  refine ⟨by simp [Variable.copy_from], ?_, rfl, rfl, rfl, rfl, rfl, rfl, rfl⟩
  intro hty hid
  simp [Variable.copy_from, hty, hid]

/-- C10 witness: a concrete `copy_from` between two distinct `Param`s
takes the source's value and metadata while keeping the target's trace
token. -/
theorem inplace_overwrite_preserves_trace_state_witness :
    (let v : Variable Nat Nat :=
      { id := 0, ty := .param, raw_value := 1, get_value_hooks := [],
        set_value_hooks := [], create_value_hooks := [], add_axis_hooks := [],
        remove_axis_hooks := [], metadata := [], traceState := 5 }
    let w : Variable Nat Nat :=
      { id := 1, ty := .param, raw_value := 2, get_value_hooks := [7],
        set_value_hooks := [], create_value_hooks := [], add_axis_hooks := [],
        remove_axis_hooks := [], metadata := [("sharding", .meta 9)],
        traceState := 6 }
    v.copy_from w
      = (none,
          { id := 0, ty := .param, raw_value := 2, get_value_hooks := [7],
            set_value_hooks := [], create_value_hooks := [],
            add_axis_hooks := [], remove_axis_hooks := [],
            metadata := [("sharding", .meta 9)], traceState := 5 })) :=
  (inplace_overwrite_preserves_trace_state _ _
      (⟨0, .param, 1, [], [], [], [], [], []⟩ : VariableState Nat Nat)).2.1
    (by decide) (by decide)

theorem lookupA_insertA_self {κ β : Type} [DecidableEq κ]
    (l : List (κ × β)) (k : κ) (b : β) :
    lookupA (insertA l k b) k = some b := by
  induction l with
  | nil => simp [insertA, lookupA]
  | cons p rest ih =>
      obtain ⟨pk, pb⟩ := p
      by_cases h : k = pk
      · simp [insertA, h, lookupA]
      · simp [insertA, h, lookupA, ih]

/-- C1.  Sharing fidelity of flatten/unflatten on the claimed scenario: a
graph `g = [v, v]` whose two entries reference the same `Variable`
instance (heap address 5) flattens to a `State` with exactly one entry
(the second occurrence becomes a back-reference in the `GraphDef`, not a
second `State` entry), and unflattening that output reconstructs both
list slots pointing at one shared fresh `Variable` (both children hold
address 1) whose raw value equals the original's; in particular for a
hook-free variable such as `Param(1)` the reconstructed `.value` equals
the original value. -/
theorem shared_variable_flatten_unflatten {A M : Type} (v : Variable A M)
    (cur : Nat) :
    flatten 4 (sharedPairHeap v) (.node 0) []
        = some (.nodeDef "list" 0 [(.idx 0, .varDef 1), (.idx 1, .nodeRef 1)],
            [([Key.idx 0], v.to_state 0)],
            [(ObjId.varId 5, 1), (ObjId.nodeId 0, 0)])
    ∧ unflatten (.nodeDef "list" 0 [(.idx 0, .varDef 1), (.idx 1, .nodeRef 1)])
          [([Key.idx 0], v.to_state 0)] [] cur (⟨[], []⟩ : GraphHeap A M) 0
        = .ok (.node 0,
            ⟨⟨[(0, ("list", [(.idx 0, .var 1), (.idx 1, .var 1)]))],
              [(1, (v.to_state 0).to_variable 1 cur)]⟩,
             [(1, .var 1), (0, .node 0)], 2⟩)
    ∧ ((v.to_state 0).to_variable 1 cur).raw_value = v.raw_value
    ∧ (v.get_value_hooks = [] → ∀ env : HookEnv A M,
        valueGet env ((v.to_state 0).to_variable 1 cur) = v.raw_value) := by
  refine ⟨?_, rfl, rfl, ?_⟩
  · simp [flatten, flattenRef, flattenChildren, lookupA, sharedPairHeap]
  · intro h env
    simp [valueGet, applyGetHooks, VariableState.to_variable,
      Variable.to_state, h]

/-- C1 witness: the concrete scenario `v = Param(1)`, `g = [v, v]` — the
reconstructed shared variable reads back value `1`. -/
theorem shared_variable_flatten_unflatten_witness :
    (let v : Variable Nat Nat :=
      { id := 5, ty := .param, raw_value := 1, get_value_hooks := [],
        set_value_hooks := [], create_value_hooks := [], add_axis_hooks := [],
        remove_axis_hooks := [], metadata := [], traceState := 0 }
    let env : HookEnv Nat Nat :=
      { getHook := fun _ _ a => a, setHook := fun _ _ a => .ok a }
    valueGet env ((v.to_state 0).to_variable 1 0) = 1) :=
  (shared_variable_flatten_unflatten _ 0).2.2.2 rfl _

/-- C2.  Identity preservation under caching: when `index_ref_cache` maps
every index occurring in the `GraphDef` to an existing object — in
particular the root `NodeDef`'s index to an existing node — a successful
`unflatten` returns exactly that cached object as the root (the same heap
address, not a fresh allocation), and the heap cell at that address has
been overwritten in place with the node's type and freshly reconstructed
children, so a flatten → pure boundary → cached unflatten round trip
hands the caller back the original object by identity. -/
theorem cached_unflatten_returns_cached_root {A M : Type} (ty : String)
    (i : Nat) (children : List (Key × GraphDef A))
    (state : List (GPath × VariableState A M)) (cache : List (Nat × Ref A))
    (cur : Nat) (h : GraphHeap A M) (fresh : Nat) (a : Nat)
    (hcover : ∀ j ∈ defIndices (GraphDef.nodeDef ty i children),
      (lookupA cache j).isSome = true)
    (hroot : lookupA cache i = some (.node a)) :
    ∀ r ctx', unflatten (.nodeDef ty i children) state cache cur h fresh
        = .ok (r, ctx') →
      r = .node a ∧ ∃ cs, lookupA ctx'.heap.nodes a = some (ty, cs) := by
  intro r ctx' hok
  have hrun : unflatten (.nodeDef ty i children) state cache cur h fresh
      = match unflattenChildren state cache cur children []
          (⟨h, [(i, Ref.node a)], fresh⟩ : UnflatCtx A M) with
        | .error e => .error e
        | .ok (cs, ctx₃) =>
            .ok (.node a, { ctx₃ with heap := setNode ctx₃.heap a (ty, cs) }) := by
    show (match
        (match lookupA cache i with
          | some (.node a) => (a, (⟨h, [], fresh⟩ : UnflatCtx A M))
          | _ => (fresh, (⟨h, [], fresh + 1⟩ : UnflatCtx A M))) with
      | (addr, ctx₁) =>
        match unflattenChildren state cache cur children []
            { ctx₁ with indexRef := (i, Ref.node addr) :: ctx₁.indexRef } with
        | .error e => Except.error e
        | .ok (cs, ctx₃) =>
            Except.ok (Ref.node addr,
              { ctx₃ with heap := setNode ctx₃.heap addr (ty, cs) })) = _
    rw [hroot]
  rw [hrun] at hok
  rcases hch : unflattenChildren state cache cur children []
      (⟨h, [(i, Ref.node a)], fresh⟩ : UnflatCtx A M) with e | ⟨cs, ctx₃⟩
  · rw [hch] at hok
    exact absurd hok (by simp)
  · rw [hch] at hok
    simp only [Except.ok.injEq, Prod.mk.injEq] at hok
    obtain ⟨hr, hctx⟩ := hok
    subst hr
    subst hctx
    exact ⟨rfl, cs, lookupA_insertA_self _ _ _⟩

/-- C2 witness: a concrete round trip — root ``Foo`` with one parameter —
flattened, then unflattened with the cache mapping every index back to
the original objects: the returned root is the original heap address 0
(`m2 is m`), and its fields were rewritten in place. -/
theorem cached_unflatten_returns_cached_root_witness :
    (let p : Variable Nat Nat :=
      { id := 7, ty := .param, raw_value := 3, get_value_hooks := [],
        set_value_hooks := [], create_value_hooks := [], add_axis_hooks := [],
        remove_axis_hooks := [], metadata := [], traceState := 0 }
    let heap0 : GraphHeap Nat Nat :=
      ⟨[(0, ("Foo", [(.name "a", .var 7)]))], [(7, p)]⟩
    let gd : GraphDef Nat := .nodeDef "Foo" 0 [(.name "a", .varDef 1)]
    let st : List (GPath × VariableState Nat Nat) :=
      [([Key.name "a"], p.to_state 0)]
    let cache : List (Nat × Ref Nat) := [(0, .node 0), (1, .var 7)]
    let ctxOut : UnflatCtx Nat Nat :=
      ⟨⟨[(0, ("Foo", [(.name "a", .var 100)]))],
        [(7, p), (100, (p.to_state 0).to_variable 100 9)]⟩,
       [(1, .var 100), (0, .node 0)], 101⟩
    flatten 4 heap0 (.node 0) []
        = some (gd, st, [(ObjId.varId 7, 1), (ObjId.nodeId 0, 0)])
      ∧ unflatten gd st cache 9 heap0 100 = .ok (.node 0, ctxOut)
      ∧ ((Ref.node 0 : Ref Nat) = Ref.node 0
          ∧ ∃ cs, lookupA ctxOut.heap.nodes 0 = some ("Foo", cs))) :=
  ⟨by simp [flatten, flattenRef, flattenChildren, lookupA], rfl,
   cached_unflatten_returns_cached_root "Foo" 0 [(.name "a", .varDef 1)]
     [([Key.name "a"],
       Variable.to_state
         { id := 7, ty := .param, raw_value := 3, get_value_hooks := [],
           set_value_hooks := [], create_value_hooks := [],
           add_axis_hooks := [], remove_axis_hooks := [], metadata := [],
           traceState := 0 } 0)]
     [(0, .node 0), (1, .var 7)] 9
     ⟨[(0, ("Foo", [(.name "a", .var 7)]))],
      [(7, { id := 7, ty := .param, raw_value := 3, get_value_hooks := [],
             set_value_hooks := [], create_value_hooks := [],
             add_axis_hooks := [], remove_axis_hooks := [], metadata := [],
             traceState := 0 })]⟩
     100 0 (by decide) rfl (.node 0) _ rfl⟩

/-- C3.  Structure mismatch on a missing `State` entry: for every
well-formed `GraphDef` with at least one leaf-variable slot, unflattening
against the empty `State` fails with a `StructureMismatch` error whose
message says an expected key was not found; being an error result, no
partially reconstructed graph is returned. -/
theorem unflatten_empty_state_structure_mismatch {A M : Type}
    (gd : GraphDef A) (cur : Nat) (h : GraphHeap A M) (fresh : Nat)
    (hwf : wellFormed gd) (hvar : hasVar gd = true) :
    ∃ p, unflatten gd ([] : List (GPath × VariableState A M)) [] cur h fresh
        = .error (.structureMismatch p)
      ∧ GraphErr.message (.structureMismatch p) = "Expected key not found" := by
  obtain ⟨seen, hchk⟩ := hwf
  obtain ⟨p, hp⟩ := (unflattenEmptyP [] cur gd []
    (⟨h, [], fresh⟩ : UnflatCtx A M) [] seen hchk (by simp)).1 hvar
  exact ⟨p, hp, rfl⟩

/-- C3 witness: the `GraphDef` of the shared-pair scenario (one variable
slot) unflattened against `State({})` raises the expected-key-not-found
structure mismatch. -/
theorem unflatten_empty_state_structure_mismatch_witness :
    ∃ p, unflatten
          (GraphDef.nodeDef "list" 0 [(.idx 0, .varDef 1), (.idx 1, .nodeRef 1)])
          ([] : List (GPath × VariableState Nat Nat)) [] 0
          (⟨[], []⟩ : GraphHeap Nat Nat) 0
        = .error (.structureMismatch p)
      ∧ GraphErr.message (.structureMismatch p) = "Expected key not found" :=
  unflatten_empty_state_structure_mismatch _ 0 _ 0 ⟨[1, 0], rfl⟩ rfl

/-- C5 witness: a concrete `VariableState` compares equal to itself under
the identity-based `==`. -/
theorem variablestate_pyeq_is_identity_witness :
    VariableState.pyEq
        (⟨3, .param, 1, [], [], [], [], [], []⟩ : VariableState Nat Nat)
        (⟨3, .param, 1, [], [], [], [], [], []⟩ : VariableState Nat Nat)
      = true :=
  (variablestate_pyeq_is_identity
    (⟨3, .param, 1, [], [], [], [], [], []⟩ : VariableState Nat Nat)
    (⟨3, .param, 1, [], [], [], [], [], []⟩ : VariableState Nat Nat)).2
